import Mathlib

set_option maxRecDepth 8192

/-!
Verification development for the school-management-system repository.

The definitions below are a shallow embedding of the TypeScript source:
- `ValidationUtils` embeds src/lib/utils.ts (national-id checksum validator,
  phone validator, class-label whitelist, input sanitizer);
- the database services embed src/lib/database.ts (expected-student upload,
  reconciliation of expected vs. registered students);
- the ingestion functions embed the row-mapping logic of
  src/components/TrackingSystem.tsx (handleFileUpload).

JavaScript numeric semantics are modelled with `Option Nat`: `parseInt` on a
non-digit character yields NaN, modelled as `none`; NaN propagates through
addition and comparison with NaN is always false, exactly as in the match
arms below.
-/

/-!
Embedding of src/lib/database.ts.  The two Supabase tables are modelled as
lists of rows in stored order; the `order('created_at', ...)` clause of the
queries is abstracted by taking rows in the stored order of the table list
(none of the verified properties depend on a particular query order).  The
`id` column of expected_students is SERIAL PRIMARY KEY; inserts are modelled
by assigning fresh identifiers above the current maximum.
-/

/-!
Embedding of the row-mapping part of `TrackingSystem.handleFileUpload`
(src/components/TrackingSystem.tsx).  A parsed spreadsheet row is a lookup
from column header to cell text (string-valued cells, the case relevant to
the verified claims).  The Excel parsing itself and the UI toasts are
outside the model; the function takes the already-parsed row list.
-/

/-- JS `parseInt` applied to a single character: a decimal digit parses to its
value, anything else yields NaN (modelled as `none`). -/
def parseDigit (c : Char) : Option Nat :=
  if c.isDigit then some (c.toNat - 48) else none

/-- Numeric value of a digit character (specification-side shorthand). -/
def digitVal (c : Char) : Nat :=
  c.toNat - 48

namespace ValidationUtils

/-- The regex test `/^(\d)\1{9}$/.test(s)`: one digit followed by nine
further copies of the same character. -/
def allSameTen (cs : List Char) : Bool :=
  match cs with
  | [] => false
  | c :: rest => c.isDigit && rest.length == 9 && rest.all (fun d => d == c)

/-- One iteration of the checksum loop
`sum += parseInt(nationalId[i]) * (10 - i)`, with NaN (`none`) absorbing. -/
def checksumStep (cs : List Char) (acc : Option Nat) (i : Nat) : Option Nat :=
  match acc, parseDigit (cs.getD i ' ') with
  | some a, some d => some (a + d * (10 - i))
  | _, _ => none

/-- The checksum loop `for (let i = 0; i < 9; i++) sum += ... * (10 - i)`. -/
def checksumSum (cs : List Char) : Option Nat :=
  (List.range 9).foldl (checksumStep cs) (some 0)

/-- Body of `ValidationUtils.validateNationalId` on the character list of the
input string.  The JS falsy test `!nationalId` is subsumed by the length
test (an empty string has length 0 ≠ 10). -/
def validateNationalIdList (cs : List Char) : Bool :=
  if cs.length ≠ 10 then false
  else if allSameTen cs then false
  else
    match checksumSum cs with
    | none => false
    | some s =>
      let remainder := s % 11
      let checkDigit := parseDigit (cs.getD 9 ' ')
      if remainder < 2 then checkDigit == some remainder
      else checkDigit == some (11 - remainder)

/-- `ValidationUtils.validateNationalId` from src/lib/utils.ts. -/
def validateNationalId (s : String) : Bool :=
  validateNationalIdList s.data

/-- The expected check digit of the specification: `remainder` when
`remainder < 2`, else `11 - remainder`, where
`remainder = (Σ digit[i] * (10 - i)) % 11` over the first nine digits. -/
def specCheckDigit (cs : List Char) : Nat :=
  let sum := ∑ i in Finset.range 9, digitVal (cs.getD i ' ') * (10 - i)
  if sum % 11 < 2 then sum % 11 else 11 - sum % 11

/-- The character class of the JS regex `/\s/` (ECMAScript WhiteSpace and
LineTerminator code points), used by `phone.replace(/\s/g, '')`. -/
def isJsWhitespace (c : Char) : Bool :=
  c == ' ' || c == '\t' || c == '\n' || c == '\r'
  || c.toNat == 0x0B || c.toNat == 0x0C
  || c.toNat == 0xA0 || c.toNat == 0x1680
  || (0x2000 ≤ c.toNat && c.toNat ≤ 0x200A)
  || c.toNat == 0x2028 || c.toNat == 0x2029 || c.toNat == 0x202F
  || c.toNat == 0x205F || c.toNat == 0x3000 || c.toNat == 0xFEFF

/-- The mandatory part `9\d{9}` of the phone regex. -/
def matchMobileCore (cs : List Char) : Bool :=
  match cs with
  | [] => false
  | c :: ds => c == '9' && ds.length == 9 && ds.all Char.isDigit

/-- The anchored regex `^(\+98|0)?9\d{9}$`.  The three prefix alternatives
(`+98`, `0`, empty) are mutually exclusive on the first character, so the
alternation is implemented as a dispatch on the first character. -/
def matchIranMobile (cs : List Char) : Bool :=
  match cs with
  | [] => false
  | c :: rest =>
    if c == '+' then
      match rest with
      | c2 :: c3 :: rest2 => c2 == '9' && c3 == '8' && matchMobileCore rest2
      | _ => false
    else if c == '0' then matchMobileCore rest
    else matchMobileCore (c :: rest)

/-- `ValidationUtils.validatePhoneNumber` from src/lib/utils.ts: a falsy
(empty) input is accepted (optional field); otherwise the input with all
`\s` whitespace removed is tested against the mobile-number regex. -/
def validatePhoneNumber (phone : String) : Bool :=
  if phone.data.isEmpty then true
  else matchIranMobile (phone.data.filter (fun c => !isJsWhitespace c))

/-- Specification-side reading of the claim: optional `+98` or `0` prefix,
then `9` followed by nine digits. -/
def specIranMobile (cs : List Char) : Prop :=
  ∃ ds : List Char, ds.length = 9 ∧ (∀ c ∈ ds, c.isDigit = true) ∧
    (cs = '9' :: ds ∨ cs = '0' :: '9' :: ds ∨ cs = '+' :: '9' :: '8' :: '9' :: ds)

end ValidationUtils

/-- A row of the students table (the fields used by the services; the
remaining optional columns of the TS interface play no role here). -/
structure Student where
  first_name : String
  last_name : String
  national_id : String
  class_name : String
deriving DecidableEq

/-- A row of the expected_students table. -/
structure ExpectedStudent where
  id : Nat
  first_name : String
  last_name : String
  national_id : String
  class_name : String
  is_registered : Bool
  upload_session_id : String
deriving DecidableEq

/-- An expected-student insert payload (no id yet, the session id is added
by `uploadExpectedStudents`). -/
structure ExpectedStudentInsert where
  first_name : String
  last_name : String
  national_id : String
  class_name : String
  is_registered : Bool
deriving DecidableEq

/-- The persistent state: the students table and the expected_students
table. -/
@[ext]
structure DBState where
  students : List Student
  expected_students : List ExpectedStudent
deriving DecidableEq

namespace StudentService

/-- `StudentService.getAllStudents`. -/
def getAllStudents (st : DBState) : List Student :=
  st.students

end StudentService

namespace ExpectedStudentService

/-- `ExpectedStudentService.getExpectedStudents` with a session id: filter
the expected_students table by upload_session_id. -/
def getExpectedStudents (st : DBState) (sessionId : String) : List ExpectedStudent :=
  st.expected_students.filter (fun e => e.upload_session_id == sessionId)

/-- Core of `getUnregisteredStudents`: keep the expected records whose
national_id is not in the set of registered national ids. -/
def unregisteredOf (expected : List ExpectedStudent) (registered : List Student) :
    List ExpectedStudent :=
  let registeredNationalIds := registered.map (fun s => s.national_id)
  expected.filter (fun e => !registeredNationalIds.contains e.national_id)

/-- `ExpectedStudentService.getUnregisteredStudents`. -/
def getUnregisteredStudents (st : DBState) (sessionId : String) : List ExpectedStudent :=
  unregisteredOf (getExpectedStudents st sessionId) (StudentService.getAllStudents st)

/-- The per-row updates issued by `updateRegistrationStatus`: for every
expected record, the pair of its row id and its computed is_registered
flag. -/
def reconcileUpdates (expected : List ExpectedStudent) (registered : List Student) :
    List (Nat × Bool) :=
  let registeredNationalIds := registered.map (fun s => s.national_id)
  expected.map (fun e => (e.id, registeredNationalIds.contains e.national_id))

/-- One SQL `update expected_students set is_registered = flag where
id = rowId`. -/
def applyUpdate (db : List ExpectedStudent) (rowId : Nat) (flag : Bool) :
    List ExpectedStudent :=
  db.map (fun e => if e.id == rowId then { e with is_registered := flag } else e)

/-- The sequential loop of updates issued by `updateRegistrationStatus`. -/
def applyUpdates (db : List ExpectedStudent) (updates : List (Nat × Bool)) :
    List ExpectedStudent :=
  updates.foldl (fun acc u => applyUpdate acc u.1 u.2) db

/-- `ExpectedStudentService.updateRegistrationStatus`: fetch the expected
records of the session and all registered students, then write each
record's membership flag back by row id. -/
def updateRegistrationStatus (st : DBState) (sessionId : String) : DBState :=
  { st with
    expected_students :=
      applyUpdates st.expected_students
        (reconcileUpdates (getExpectedStudents st sessionId)
          (StudentService.getAllStudents st)) }

/-- The next fresh SERIAL id of the expected_students table. -/
def nextExpectedId (st : DBState) : Nat :=
  (st.expected_students.map (fun e => e.id)).foldl max 0 + 1

/-- The rows inserted by `uploadExpectedStudents`: each payload row gets the
upload session id and a fresh id. -/
def mkInsertRows (students : List ExpectedStudentInsert) (sessionId : String)
    (base : Nat) : List ExpectedStudent :=
  students.enum.map (fun p =>
    { id := base + p.1
      first_name := p.2.first_name
      last_name := p.2.last_name
      national_id := p.2.national_id
      class_name := p.2.class_name
      is_registered := p.2.is_registered
      upload_session_id := sessionId })

/-- `ExpectedStudentService.uploadExpectedStudents`: delete all rows of the
session, then insert the new rows tagged with the session id. -/
def uploadExpectedStudents (st : DBState) (students : List ExpectedStudentInsert)
    (sessionId : String) : DBState :=
  { st with
    expected_students :=
      st.expected_students.filter (fun e => !(e.upload_session_id == sessionId))
        ++ mkInsertRows students sessionId (nextExpectedId st) }

/-- Specification-side reading of the unregistered subset: exactly the
expected records whose identity occurs in no registered record, in the
relative order of the expected list. -/
def specUnregistered (expected : List ExpectedStudent) (registered : List Student) :
    List ExpectedStudent :=
  expected.filter (fun e => decide (∀ r ∈ registered, r.national_id ≠ e.national_id))

/-- Specification-side reading of the updates: every expected record is
assigned the boolean saying whether its identity occurs in the registered
set. -/
def specUpdates (expected : List ExpectedStudent) (registered : List Student) :
    List (Nat × Bool) :=
  expected.map (fun e => (e.id, decide (∃ r ∈ registered, r.national_id = e.national_id)))

/-- The cumulative effect of the update sequence on a single row. -/
def rowApply (updates : List (Nat × Bool)) (e : ExpectedStudent) : ExpectedStudent :=
  updates.foldl
    (fun e u => if e.id == u.1 then { e with is_registered := u.2 } else e) e

/-- The flag of the last update matching a given row id, if any. -/
def lastFlag (updates : List (Nat × Bool)) (i : Nat) : Option Bool :=
  updates.foldl (fun acc u => if i == u.1 then some u.2 else acc) none

/-- Write an optional flag into a row. -/
def setFlagOpt (e : ExpectedStudent) : Option Bool → ExpectedStudent
  | none => e
  | some b => { e with is_registered := b }

/-- Agreement on every column except is_registered. -/
def agreesExceptFlag (a b : ExpectedStudent) : Prop :=
  a.id = b.id ∧ a.first_name = b.first_name ∧ a.last_name = b.last_name
  ∧ a.national_id = b.national_id ∧ a.class_name = b.class_name
  ∧ a.upload_session_id = b.upload_session_id

end ExpectedStudentService

namespace ValidationUtils

/-- `ValidationUtils.isValidClass`: the fixed whitelist of class labels. -/
def isValidClass (className : String) : Bool :=
  ["701", "702", "703", "801", "802", "803", "804", "805", "806", "807"].contains
    className

/-- `input.replace(/\s+/g, ' ')`: every maximal whitespace run becomes one
space. -/
def collapseSpaceRuns : List Char → List Char
  | [] => []
  | c :: rest =>
    if isJsWhitespace c then
      ' ' :: collapseSpaceRuns (rest.dropWhile isJsWhitespace)
    else
      c :: collapseSpaceRuns rest
termination_by cs => cs.length
decreasing_by
  · have := (List.dropWhile_sublist isJsWhitespace (l := rest)).length_le
    simp only [List.length_cons]
    omega
  · simp only [List.length_cons]
    omega

/-- JS `String.prototype.trim`: drop leading and trailing whitespace. -/
def trimJs (cs : List Char) : List Char :=
  ((cs.dropWhile isJsWhitespace).reverse.dropWhile isJsWhitespace).reverse

/-- `ValidationUtils.sanitizeInput`: trim, then collapse inner whitespace
runs to single spaces. -/
def sanitizeInput (s : String) : String :=
  String.mk (collapseSpaceRuns (trimJs s.data))

end ValidationUtils

/-- A parsed spreadsheet row: column header to cell text. -/
def Row : Type := String → Option String

/-- The JS falsy-chain `row[a1] || row[a2] || ... || ''`: the first present
non-empty cell under the alias headers, else the empty string. -/
def lookupAliases (row : Row) : List String → String
  | [] => ""
  | a :: rest =>
    match row a with
    | some v => if v = "" then lookupAliases row rest else v
    | none => lookupAliases row rest

/-- `String(x).replace(/\D/g, '')`: keep only decimal digits. -/
def stripNonDigits (s : String) : String :=
  String.mk (s.data.filter Char.isDigit)

/-- The three per-row error classes surfaced by the upload loop. -/
inductive RowError where
  | missingField
  | invalidIdentity
  | invalidClass
deriving DecidableEq

/-- The per-row validation of the upload loop: extract the four fields
under their alias headers, then check required presence, national id and
class label, producing either the insert payload or the row's error
class. -/
def classifyRow (row : Row) : Except RowError ExpectedStudentInsert :=
  let firstName := lookupAliases row ["نام", "first_name", "FirstName", "نام کوچک"]
  let lastName := lookupAliases row ["نام خانوادگی", "last_name", "LastName", "نام فامیل"]
  let nationalId := stripNonDigits
    (lookupAliases row ["کد ملی", "national_id", "NationalId", "شناسه ملی"])
  let className := lookupAliases row ["کلاس", "class", "Class", "کلاس تحصیلی"]
  if firstName = "" ∨ lastName = "" ∨ nationalId = "" ∨ className = "" then
    Except.error RowError.missingField
  else if nationalId.length ≠ 10 ∨ ¬ ValidationUtils.validateNationalId nationalId then
    Except.error RowError.invalidIdentity
  else if ¬ ValidationUtils.isValidClass className then
    Except.error RowError.invalidClass
  else
    Except.ok
      { first_name := ValidationUtils.sanitizeInput firstName
        last_name := ValidationUtils.sanitizeInput lastName
        national_id := nationalId
        class_name := className
        is_registered := false }

/-- The accumulation loop `excelData.forEach(...)`: valid rows are pushed
onto the payload list, malformed rows push one error each. -/
def processRows (rows : List Row) : List ExpectedStudentInsert × List RowError :=
  rows.foldl
    (fun acc row =>
      match classifyRow row with
      | Except.ok s => (acc.1 ++ [s], acc.2)
      | Except.error e => (acc.1, acc.2 ++ [e]))
    ([], [])

/-- Batch-level failures of the upload handler. -/
inductive UploadError where
  | emptyFile
  | noValidRecords
deriving DecidableEq

/-- The batch-level checks of `handleFileUpload`: an empty parse fails, a
batch whose rows all failed validation fails with the no-valid-records
error, otherwise the valid payloads and the per-row errors are returned. -/
def ingest (rows : List Row) :
    Except UploadError (List ExpectedStudentInsert × List RowError) :=
  if rows.length = 0 then Except.error UploadError.emptyFile
  else
    let res := processRows rows
    if 0 < res.2.length ∧ res.1.length = 0 then
      Except.error UploadError.noValidRecords
    else Except.ok res

/-- `handleFileUpload` after Excel parsing: validate the rows, then replace
the session's expected rows with the valid payloads. -/
def handleFileUpload (st : DBState) (rows : List Row) (sessionId : String) :
    Except UploadError (DBState × List RowError) :=
  match ingest rows with
  | Except.error e => Except.error e
  | Except.ok res =>
      Except.ok (ExpectedStudentService.uploadExpectedStudents st res.1 sessionId,
        res.2)

/-- Specification-side projection: the payload of a well-formed row. -/
def rowOk (row : Row) : Option ExpectedStudentInsert :=
  match classifyRow row with
  | Except.ok s => some s
  | Except.error _ => none

/-- Specification-side projection: the error class of a malformed row. -/
def rowErr (row : Row) : Option RowError :=
  match classifyRow row with
  | Except.ok _ => none
  | Except.error e => some e

namespace ValidationUtils

lemma parseDigit_of_isDigit {c : Char} (h : c.isDigit = true) :
    parseDigit c = some (digitVal c) := by
  simp [parseDigit, h, digitVal]

lemma parseDigit_of_not_isDigit {c : Char} (h : c.isDigit = false) :
    parseDigit c = none := by
  simp [parseDigit, h]

lemma checksumStep_none (cs : List Char) (i : Nat) :
    checksumStep cs none i = none := by
  simp [checksumStep]

lemma checksumStep_bad (cs : List Char) (acc : Option Nat) (i : Nat)
    (h : parseDigit (cs.getD i ' ') = none) :
    checksumStep cs acc i = none := by
  unfold checksumStep
  rw [h]
  cases acc <;> rfl

lemma foldl_checksumStep_none (cs : List Char) (l : List Nat) :
    l.foldl (checksumStep cs) none = none := by
  induction l with
  | nil => rfl
  | cons j t ih => simp [List.foldl_cons, checksumStep_none, ih]

lemma foldl_checksumStep_of_bad (cs : List Char) (l : List Nat) (i : Nat)
    (hmem : i ∈ l) (hbad : parseDigit (cs.getD i ' ') = none) :
    ∀ acc, l.foldl (checksumStep cs) acc = none := by
  induction l with
  | nil => cases hmem
  | cons j t ih =>
    intro acc
    rcases List.mem_cons.mp hmem with hj | ht
    · subst hj
      rw [List.foldl_cons, checksumStep_bad cs acc i hbad,
        foldl_checksumStep_none]
    · rw [List.foldl_cons]
      exact ih ht _

/-- If some character among the first nine is not a digit, the checksum is
NaN. -/
lemma checksumSum_eq_none (cs : List Char) (i : Nat) (hi : i < 9)
    (hbad : (cs.getD i ' ').isDigit = false) :
    checksumSum cs = none := by
  exact foldl_checksumStep_of_bad cs (List.range 9) i (List.mem_range.mpr hi)
    (parseDigit_of_not_isDigit hbad) (some 0)

lemma foldl_checksumStep_of_digits (cs : List Char) :
    ∀ n : Nat, (∀ i, i < n → (cs.getD i ' ').isDigit = true) →
      (List.range n).foldl (checksumStep cs) (some 0)
        = some (∑ i in Finset.range n, digitVal (cs.getD i ' ') * (10 - i)) := by
  intro n
  induction n with
  | zero => intro _; simp
  | succ m ih =>
    intro h
    rw [List.range_succ, List.foldl_append, ih (fun i hi => h i (Nat.lt_succ_of_lt hi))]
    simp only [List.foldl_cons, List.foldl_nil, checksumStep,
      parseDigit_of_isDigit (h m (Nat.lt_succ_self m))]
    rw [Finset.sum_range_succ]

/-- If the first nine characters are digits, the checksum is the weighted
digit sum of the specification. -/
lemma checksumSum_eq_sum (cs : List Char)
    (h : ∀ i, i < 9 → (cs.getD i ' ').isDigit = true) :
    checksumSum cs
      = some (∑ i in Finset.range 9, digitVal (cs.getD i ' ') * (10 - i)) :=
  foldl_checksumStep_of_digits cs 9 h

/-- The checksum only reads the first nine characters. -/
lemma checksumSum_congr (cs cs2 : List Char)
    (h : ∀ i, i < 9 → cs.getD i ' ' = cs2.getD i ' ') :
    checksumSum cs = checksumSum cs2 := by
  have haux : ∀ n : Nat, n ≤ 9 → ∀ acc : Option Nat,
      (List.range n).foldl (checksumStep cs) acc
        = (List.range n).foldl (checksumStep cs2) acc := by
    intro n
    induction n with
    | zero => intro _ acc; rfl
    | succ m ih =>
      intro hm acc
      rw [List.range_succ, List.foldl_append, List.foldl_append,
        ih (Nat.le_of_succ_le hm)]
      simp only [List.foldl_cons, List.foldl_nil, checksumStep,
        h m (Nat.lt_of_lt_of_le (Nat.lt_succ_self m) hm)]
  exact haux 9 (Nat.le_refl 9) (some 0)

lemma getD_mem_of_lt (cs : List Char) (i : Nat) (hi : i < cs.length) :
    cs.getD i ' ' ∈ cs := by
  rw [List.getD_eq_getElem cs ' ' hi]
  exact List.getElem_mem hi

lemma allSameTen_eq_false (cs : List Char)
    (h : ¬ ∀ c ∈ cs, c = cs.headD ' ') : allSameTen cs = false := by
  cases cs with
  | nil => rfl
  | cons c rest =>
    cases hast : allSameTen (c :: rest) with
    | false => rfl
    | true =>
      exfalso
      apply h
      simp only [allSameTen, Bool.and_eq_true, beq_iff_eq,
        List.all_eq_true] at hast
      intro x hx
      rcases List.mem_cons.mp hx with hx | hx
      · simp [hx]
      · simpa using hast.2 x hx

lemma validateList_false_of_allSame (cs : List Char)
    (h : allSameTen cs = true) : validateNationalIdList cs = false := by
  unfold validateNationalIdList
  by_cases hl : cs.length ≠ 10
  · simp [hl]
  · simp [hl, h]

lemma validateList_false_of_malformed (cs : List Char)
    (h : cs.length ≠ 10 ∨ ∃ c ∈ cs, c.isDigit = false) :
    validateNationalIdList cs = false := by
  rcases h with hl | ⟨c, hc, hcd⟩
  · unfold validateNationalIdList
    simp [hl]
  · by_cases hl : cs.length ≠ 10
    · unfold validateNationalIdList
      simp [hl]
    · push_neg at hl
      by_cases hs : allSameTen cs = true
      · exact validateList_false_of_allSame cs hs
      · obtain ⟨i, hil, hci⟩ := List.mem_iff_getElem.mp hc
        have hgd : cs.getD i ' ' = c := by
          rw [List.getD_eq_getElem cs ' ' hil, hci]
        by_cases hi9 : i < 9
        · unfold validateNationalIdList
          have hnone : checksumSum cs = none :=
            checksumSum_eq_none cs i hi9 (by rw [hgd]; exact hcd)
          simp [hl, hs, hnone]
        · have hi : i = 9 := by omega
          subst hi
          unfold validateNationalIdList
          have hpd : parseDigit cs[9] = none := by
            rw [hci]; exact parseDigit_of_not_isDigit hcd
          cases hsum : checksumSum cs with
          | none => simp [hl, hs, hsum]
          | some v => simp [hl, hs, hsum, hpd]

lemma validateList_length (cs : List Char)
    (h : validateNationalIdList cs = true) : cs.length = 10 := by
  by_contra hl
  rw [validateList_false_of_malformed cs (Or.inl hl)] at h
  cases h

lemma validateList_digits (cs : List Char)
    (h : validateNationalIdList cs = true) : ∀ c ∈ cs, c.isDigit = true := by
  intro c hc
  cases hcd : c.isDigit with
  | true => rfl
  | false =>
    rw [validateList_false_of_malformed cs (Or.inr ⟨c, hc, hcd⟩)] at h
    cases h

lemma validateList_not_allSame (cs : List Char)
    (h : validateNationalIdList cs = true) : allSameTen cs = false := by
  cases hs : allSameTen cs with
  | false => rfl
  | true =>
    rw [validateList_false_of_allSame cs hs] at h
    cases h

/-- The validator, on a well-formed not-all-identical input, accepts exactly
when the last digit is the specification's expected check digit. -/
lemma validateList_iff (cs : List Char) (hlen : cs.length = 10)
    (hdig : ∀ c ∈ cs, c.isDigit = true)
    (hsame : allSameTen cs = false) :
    validateNationalIdList cs = true ↔
      digitVal (cs.getD 9 ' ') = specCheckDigit cs := by
  have h9 : ∀ i, i < 9 → (cs.getD i ' ').isDigit = true := by
    intro i hi
    exact hdig _ (getD_mem_of_lt cs i (by omega))
  have hc9 : (cs.getD 9 ' ').isDigit = true :=
    hdig _ (getD_mem_of_lt cs 9 (by omega))
  unfold validateNationalIdList specCheckDigit
  rw [checksumSum_eq_sum cs h9, parseDigit_of_isDigit hc9,
    if_neg (fun h2 => h2 hlen), if_neg (by simp [hsame])]
  dsimp only
  by_cases hr : (∑ i in Finset.range 9, digitVal (cs.getD i ' ') * (10 - i)) % 11 < 2
  · rw [if_pos hr, if_pos hr]
    simp
  · rw [if_neg hr, if_neg hr]
    simp

/-- The spec-side check digit only reads the first nine characters. -/
lemma specCheckDigit_congr (cs cs2 : List Char)
    (h : ∀ i, i < 9 → cs.getD i ' ' = cs2.getD i ' ') :
    specCheckDigit cs = specCheckDigit cs2 := by
  unfold specCheckDigit
  have hsum : (∑ i in Finset.range 9, digitVal (cs.getD i ' ') * (10 - i))
      = ∑ i in Finset.range 9, digitVal (cs2.getD i ' ') * (10 - i) := by
    refine Finset.sum_congr rfl ?_
    intro i hi
    rw [h i (Finset.mem_range.mp hi)]
  rw [hsum]

end ValidationUtils

/-- C1: for every string of exactly 10 decimal digits whose digits are not
all identical, `validateNationalId` returns true if and only if the 10th
digit equals the expected check digit `specCheckDigit` computed from
`sum = Σ digit[i] * (10 - i)` over the first nine digits. -/
theorem validateNationalId_checkDigit_iff (s : String)
    (hlen : s.data.length = 10)
    (hdig : ∀ c ∈ s.data, c.isDigit = true)
    (hsame : ¬ ∀ c ∈ s.data, c = s.data.headD ' ') :
    ValidationUtils.validateNationalId s = true ↔
      digitVal (s.data.getD 9 ' ') = ValidationUtils.specCheckDigit s.data :=
  ValidationUtils.validateList_iff s.data hlen hdig
    (ValidationUtils.allSameTen_eq_false s.data hsame)

theorem validateNationalId_checkDigit_iff_witness :
    ValidationUtils.validateNationalId "0499370899" = true ↔
      digitVal ("0499370899".data.getD 9 ' ')
        = ValidationUtils.specCheckDigit "0499370899".data :=
  validateNationalId_checkDigit_iff "0499370899" (by decide) (by decide)
    (by decide)

/-- C3: for every string that does not match the 10-digit shape (wrong
length, empty, or containing a non-digit character), `validateNationalId`
returns false.  The Lean embedding is a total function, so the absence of
exceptions holds by construction. -/
theorem validateNationalId_malformed_false (s : String)
    (h : s.data.length ≠ 10 ∨ ∃ c ∈ s.data, c.isDigit = false) :
    ValidationUtils.validateNationalId s = false :=
  ValidationUtils.validateList_false_of_malformed s.data h

theorem validateNationalId_malformed_false_witness :
    ValidationUtils.validateNationalId "04993a0899" = false :=
  validateNationalId_malformed_false "04993a0899" (Or.inr ⟨'a', by decide, by decide⟩)

/-- C6: the fixture "0499370899" is accepted, and replacing the last digit
of any accepted 10-digit string by a digit with a different value yields a
rejected string. -/
theorem validateNationalId_fixture_flip :
    ValidationUtils.validateNationalId "0499370899" = true ∧
    ∀ (s : String) (c : Char),
      ValidationUtils.validateNationalId s = true → c.isDigit = true →
      digitVal c ≠ digitVal (s.data.getD 9 ' ') →
      ValidationUtils.validateNationalId (String.mk (s.data.take 9 ++ [c])) = false := by
  constructor
  · decide
  · intro s c hacc hc hne
    have hacc2 : ValidationUtils.validateNationalIdList s.data = true := hacc
    have hlen := ValidationUtils.validateList_length s.data hacc2
    have hdig := ValidationUtils.validateList_digits s.data hacc2
    have hns := ValidationUtils.validateList_not_allSame s.data hacc2
    set cs := s.data with hcs
    set cs2 := cs.take 9 ++ [c] with hcs2
    have hlent : (cs.take 9).length = 9 := by
      rw [List.length_take, hlen]
      omega
    have hlen2 : cs2.length = 10 := by
      rw [hcs2, List.length_append, hlent]
      simp
    have hagree : ∀ i, i < 9 → cs2.getD i ' ' = cs.getD i ' ' := by
      intro i hi
      rw [List.getD_eq_getD_get?, List.getD_eq_getD_get?,
        List.get?_eq_getElem?, List.get?_eq_getElem?, hcs2,
        List.getElem?_append_left (by rw [hlent]; exact hi),
        List.getElem?_take_of_lt hi]
    have hlast : cs2.getD 9 ' ' = c := by
      rw [List.getD_eq_getD_get?, List.get?_eq_getElem?, hcs2,
        List.getElem?_append_right (by rw [hlent]), hlent]
      rfl
    have hdig2 : ∀ d ∈ cs2, d.isDigit = true := by
      intro d hd
      rcases List.mem_append.mp hd with hd | hd
      · exact hdig d (List.mem_of_mem_take hd)
      · rcases List.mem_singleton.mp hd with rfl
        exact hc
    show ValidationUtils.validateNationalIdList cs2 = false
    by_cases hs2 : ValidationUtils.allSameTen cs2 = true
    · exact ValidationUtils.validateList_false_of_allSame cs2 hs2
    · cases hv : ValidationUtils.validateNationalIdList cs2 with
      | false => rfl
      | true =>
        exfalso
        have hiff2 := ValidationUtils.validateList_iff cs2 hlen2 hdig2
          (Bool.not_eq_true _ ▸ Bool.of_not_eq_true hs2)
        have h1 : digitVal c = ValidationUtils.specCheckDigit cs2 := by
          rw [← hlast]
          exact hiff2.mp hv
        have hiff := ValidationUtils.validateList_iff cs hlen hdig hns
        have h2 : digitVal (cs.getD 9 ' ') = ValidationUtils.specCheckDigit cs :=
          hiff.mp hacc2
        have h3 : ValidationUtils.specCheckDigit cs2
            = ValidationUtils.specCheckDigit cs :=
          ValidationUtils.specCheckDigit_congr cs2 cs hagree
        exact hne (by rw [h1, h3, ← h2])

theorem validateNationalId_fixture_flip_witness :
    ValidationUtils.validateNationalId
      (String.mk ("0499370899".data.take 9 ++ ['8'])) = false :=
  validateNationalId_fixture_flip.2 "0499370899" '8' (by decide) (by decide)
    (by decide)

/-- C7: every 10-character string whose ten digits are all identical is
rejected. -/
theorem validateNationalId_repdigit_false (s : String) (c : Char)
    (hc : c.isDigit = true) (h : s.data = List.replicate 10 c) :
    ValidationUtils.validateNationalId s = false := by
  unfold ValidationUtils.validateNationalId
  rw [h]
  apply ValidationUtils.validateList_false_of_allSame
  rw [show List.replicate 10 c = c :: List.replicate 9 c from rfl]
  simp only [ValidationUtils.allSameTen, hc, List.length_replicate,
    Bool.true_and, beq_self_eq_true, List.all_eq_true]
  intro d hd
  rw [List.eq_of_mem_replicate hd]
  simp

theorem validateNationalId_repdigit_false_witness :
    ValidationUtils.validateNationalId "1111111111" = false :=
  validateNationalId_repdigit_false "1111111111" '1' (by decide) (by decide)

namespace ValidationUtils

lemma matchMobileCore_iff (cs : List Char) :
    matchMobileCore cs = true ↔
      ∃ ds : List Char, ds.length = 9 ∧ (∀ c ∈ ds, c.isDigit = true) ∧
        cs = '9' :: ds := by
  cases cs with
  | nil => simp [matchMobileCore]
  | cons c ds =>
    simp only [matchMobileCore, Bool.and_eq_true, beq_iff_eq, List.all_eq_true]
    constructor
    · rintro ⟨⟨hc, hlen⟩, hall⟩
      exact ⟨ds, hlen, fun d hd => hall d hd, by rw [hc]⟩
    · rintro ⟨ds2, hlen, hall, heq⟩
      injection heq with h1 h2
      subst h1
      subst h2
      exact ⟨⟨rfl, hlen⟩, hall⟩

lemma matchIranMobile_iff (cs : List Char) :
    matchIranMobile cs = true ↔ specIranMobile cs := by
  unfold specIranMobile
  cases cs with
  | nil => simp [matchIranMobile]
  | cons c rest =>
    by_cases hplus : c = '+'
    · subst hplus
      show (match rest with
        | c2 :: c3 :: rest2 => c2 == '9' && c3 == '8' && matchMobileCore rest2
        | _ => false) = true ↔ _
      match rest with
      | [] => simp
      | [c2] => simp
      | c2 :: c3 :: rest2 =>
        simp only [Bool.and_eq_true, beq_iff_eq, matchMobileCore_iff]
        constructor
        · rintro ⟨⟨h2, h3⟩, ds, hlen, hall, heq⟩
          exact ⟨ds, hlen, hall, Or.inr (Or.inr (by rw [h2, h3, heq]))⟩
        · rintro ⟨ds, hlen, hall, heq | heq | heq⟩ <;> injection heq with e1 e2
          · cases e1
          · cases e1
          · injection e2 with e3 e4
            injection e4 with e5 e6
            exact ⟨⟨e3, e5⟩, ds, hlen, hall, e6⟩
    · by_cases hzero : c = '0'
      · subst hzero
        show matchMobileCore rest = true ↔ _
        rw [matchMobileCore_iff]
        constructor
        · rintro ⟨ds, hlen, hall, heq⟩
          exact ⟨ds, hlen, hall, Or.inr (Or.inl (by rw [heq]))⟩
        · rintro ⟨ds, hlen, hall, heq | heq | heq⟩ <;> injection heq with e1 e2
          · cases e1
          · exact ⟨ds, hlen, hall, e2⟩
          · cases e1
      · have h1 : (c == '+') = false := by simp [hplus]
        have h2 : (c == '0') = false := by simp [hzero]
        have hred : matchIranMobile (c :: rest) = matchMobileCore (c :: rest) := by
          simp only [matchIranMobile]
          rw [h1, h2]
          simp
        rw [hred, matchMobileCore_iff]
        constructor
        · rintro ⟨ds, hlen, hall, heq⟩
          exact ⟨ds, hlen, hall, Or.inl heq⟩
        · rintro ⟨ds, hlen, hall, heq | heq | heq⟩
          · exact ⟨ds, hlen, hall, heq⟩
          · injection heq with e1 e2
            exact absurd e1 hzero
          · injection heq with e1 e2
            exact absurd e1 hplus

end ValidationUtils

/-- C10: `validatePhoneNumber` accepts the empty string (absent optional
field), and a non-empty input is accepted exactly when, after removing all
whitespace, it is an Iranian mobile number: optional `+98` or `0` prefix,
then `9` followed by nine digits. -/
theorem validatePhoneNumber_pattern :
    ValidationUtils.validatePhoneNumber "" = true ∧
    ∀ s : String, s ≠ "" →
      (ValidationUtils.validatePhoneNumber s = true ↔
        ValidationUtils.specIranMobile
          (s.data.filter (fun c => !ValidationUtils.isJsWhitespace c))) := by
  constructor
  · rfl
  · intro s hs
    have hd : ¬ s.data.isEmpty = true := by
      intro hcon
      apply hs
      apply String.ext
      simpa using hcon
    unfold ValidationUtils.validatePhoneNumber
    rw [if_neg hd]
    exact ValidationUtils.matchIranMobile_iff _

theorem validatePhoneNumber_pattern_witness :
    ValidationUtils.validatePhoneNumber "0912 345 6789" = true ↔
      ValidationUtils.specIranMobile
        ("0912 345 6789".data.filter
          (fun c => !ValidationUtils.isJsWhitespace c)) :=
  validatePhoneNumber_pattern.2 "0912 345 6789" (by decide)

namespace ExpectedStudentService

lemma contains_nationalIds (registered : List Student) (x : String) :
    (registered.map (fun s => s.national_id)).contains x
      = decide (∃ r ∈ registered, r.national_id = x) := by
  have h1 : (registered.map (fun s => s.national_id)).contains x
      = decide (x ∈ registered.map (fun s => s.national_id)) := by
    show List.elem x _ = _
    exact List.elem_eq_mem x _
  rw [h1, decide_eq_decide]
  exact List.mem_map

end ExpectedStudentService

/-- C2: the reconciliation of an expected list against a registered list
produces (a) as unregistered subset exactly the expected records whose
identity occurs in no registered record, in the relative order of the
expected list, and (b) updates assigning to every expected record the
boolean saying whether its identity occurs in the registered set. -/
theorem reconcile_partition_spec (expected : List ExpectedStudent)
    (registered : List Student) :
    ExpectedStudentService.unregisteredOf expected registered
      = ExpectedStudentService.specUnregistered expected registered
    ∧ (ExpectedStudentService.unregisteredOf expected registered).Sublist expected
    ∧ ExpectedStudentService.reconcileUpdates expected registered
      = ExpectedStudentService.specUpdates expected registered := by
  refine ⟨?_, ?_, ?_⟩
  · unfold ExpectedStudentService.unregisteredOf
      ExpectedStudentService.specUnregistered
    apply List.filter_congr
    intro e he
    rw [ExpectedStudentService.contains_nationalIds, ← decide_not,
      decide_eq_decide]
    push_neg
    rfl
  · exact List.filter_sublist _
  · unfold ExpectedStudentService.reconcileUpdates
      ExpectedStudentService.specUpdates
    apply List.map_congr_left
    intro e he
    rw [ExpectedStudentService.contains_nationalIds]

namespace ExpectedStudentService

lemma applyUpdates_eq_map (db : List ExpectedStudent) (us : List (Nat × Bool)) :
    applyUpdates db us = db.map (rowApply us) := by
  induction us generalizing db with
  | nil =>
    show db = db.map (fun e => e)
    rw [List.map_id']
  | cons u t ih =>
    show applyUpdates (applyUpdate db u.1 u.2) t = _
    rw [ih]
    unfold applyUpdate
    rw [List.map_map]
    apply List.map_congr_left
    intro e he
    rfl

lemma rowApply_append (us : List (Nat × Bool)) (u : Nat × Bool)
    (e : ExpectedStudent) :
    rowApply (us ++ [u]) e
      = (if (rowApply us e).id == u.1
          then { rowApply us e with is_registered := u.2 } else rowApply us e) := by
  unfold rowApply
  rw [List.foldl_append]
  rfl

lemma lastFlag_append (us : List (Nat × Bool)) (u : Nat × Bool) (i : Nat) :
    lastFlag (us ++ [u]) i = if i == u.1 then some u.2 else lastFlag us i := by
  unfold lastFlag
  rw [List.foldl_append]
  rfl

lemma setFlagOpt_fields (e : ExpectedStudent) (x : Option Bool) :
    (setFlagOpt e x).id = e.id ∧ (setFlagOpt e x).first_name = e.first_name
    ∧ (setFlagOpt e x).last_name = e.last_name
    ∧ (setFlagOpt e x).national_id = e.national_id
    ∧ (setFlagOpt e x).class_name = e.class_name
    ∧ (setFlagOpt e x).upload_session_id = e.upload_session_id := by
  cases x <;> exact ⟨rfl, rfl, rfl, rfl, rfl, rfl⟩

lemma setFlagOpt_overwrite (e : ExpectedStudent) (x : Option Bool) (b : Bool) :
    ({ setFlagOpt e x with is_registered := b } : ExpectedStudent)
      = { e with is_registered := b } := by
  cases x with
  | none => rfl
  | some b2 => cases e; rfl

lemma rowApply_eq_setFlagOpt (us : List (Nat × Bool)) (e : ExpectedStudent) :
    rowApply us e = setFlagOpt e (lastFlag us e.id) := by
  induction us using List.reverseRecOn with
  | nil => rfl
  | append_singleton us u ih =>
    rw [rowApply_append, lastFlag_append, ih]
    rw [(setFlagOpt_fields e (lastFlag us e.id)).1]
    by_cases hc : (e.id == u.1) = true
    · rw [if_pos hc, if_pos hc, setFlagOpt_overwrite]
      rfl
    · rw [if_neg hc, if_neg hc]

lemma rowApply_fields (us : List (Nat × Bool)) (e : ExpectedStudent) :
    (rowApply us e).id = e.id ∧ (rowApply us e).first_name = e.first_name
    ∧ (rowApply us e).last_name = e.last_name
    ∧ (rowApply us e).national_id = e.national_id
    ∧ (rowApply us e).class_name = e.class_name
    ∧ (rowApply us e).upload_session_id = e.upload_session_id := by
  rw [rowApply_eq_setFlagOpt]
  exact setFlagOpt_fields e _

lemma rowApply_rowApply (us : List (Nat × Bool)) (e : ExpectedStudent) :
    rowApply us (rowApply us e) = rowApply us e := by
  have hid : (rowApply us e).id = e.id := (rowApply_fields us e).1
  rw [rowApply_eq_setFlagOpt us (rowApply us e), hid,
    rowApply_eq_setFlagOpt us e]
  cases hL : lastFlag us e.id with
  | none => rfl
  | some b => cases e; rfl

lemma applyUpdates_applyUpdates (db : List ExpectedStudent)
    (us : List (Nat × Bool)) :
    applyUpdates (applyUpdates db us) us = applyUpdates db us := by
  rw [applyUpdates_eq_map, applyUpdates_eq_map, List.map_map]
  apply List.map_congr_left
  intro e he
  exact rowApply_rowApply us e

/-- After a reconciliation run, the session's expected records are the
original ones transformed row-wise. -/
lemma getExpectedStudents_update (st : DBState) (sid : String) :
    getExpectedStudents (updateRegistrationStatus st sid) sid
      = (getExpectedStudents st sid).map
          (rowApply (reconcileUpdates (getExpectedStudents st sid)
            (StudentService.getAllStudents st))) := by
  show (applyUpdates st.expected_students _).filter _ = _
  rw [applyUpdates_eq_map, List.filter_map]
  unfold getExpectedStudents
  congr 1
  apply List.filter_congr
  intro e he
  show ((rowApply _ e).upload_session_id == sid) = (e.upload_session_id == sid)
  rw [(rowApply_fields _ e).2.2.2.2.2]

/-- A second reconciliation run computes the same updates as the first. -/
lemma reconcileUpdates_stable (st : DBState) (sid : String) :
    reconcileUpdates (getExpectedStudents (updateRegistrationStatus st sid) sid)
        (StudentService.getAllStudents (updateRegistrationStatus st sid))
      = reconcileUpdates (getExpectedStudents st sid)
        (StudentService.getAllStudents st) := by
  rw [getExpectedStudents_update]
  show reconcileUpdates _ (StudentService.getAllStudents st) = _
  unfold reconcileUpdates
  rw [List.map_map]
  apply List.map_congr_left
  intro e he
  show (_, _) = (_, _)
  rw [(rowApply_fields _ e).1, (rowApply_fields _ e).2.2.2.1]

end ExpectedStudentService

/-- C4: reconciliation is idempotent: a second run on the state produced by
the first run (with the registered students unchanged) computes the same
updates, and applying them again leaves the state unchanged. -/
theorem reconcile_idempotent (st : DBState) (sid : String) :
    ExpectedStudentService.reconcileUpdates
        (ExpectedStudentService.getExpectedStudents
          (ExpectedStudentService.updateRegistrationStatus st sid) sid)
        (StudentService.getAllStudents
          (ExpectedStudentService.updateRegistrationStatus st sid))
      = ExpectedStudentService.reconcileUpdates
          (ExpectedStudentService.getExpectedStudents st sid)
          (StudentService.getAllStudents st)
    ∧ ExpectedStudentService.updateRegistrationStatus
        (ExpectedStudentService.updateRegistrationStatus st sid) sid
      = ExpectedStudentService.updateRegistrationStatus st sid := by
  refine ⟨ExpectedStudentService.reconcileUpdates_stable st sid, ?_⟩
  have he : (ExpectedStudentService.updateRegistrationStatus
        (ExpectedStudentService.updateRegistrationStatus st sid) sid).expected_students
      = (ExpectedStudentService.updateRegistrationStatus st sid).expected_students := by
    show ExpectedStudentService.applyUpdates
        (ExpectedStudentService.updateRegistrationStatus st sid).expected_students
        (ExpectedStudentService.reconcileUpdates
          (ExpectedStudentService.getExpectedStudents
            (ExpectedStudentService.updateRegistrationStatus st sid) sid)
          (StudentService.getAllStudents
            (ExpectedStudentService.updateRegistrationStatus st sid)))
      = (ExpectedStudentService.updateRegistrationStatus st sid).expected_students
    rw [ExpectedStudentService.reconcileUpdates_stable st sid]
    exact ExpectedStudentService.applyUpdates_applyUpdates st.expected_students _
  exact DBState.ext rfl he

namespace ExpectedStudentService

lemma foldl_lastFlag_const (i : Nat) (us : List (Nat × Bool))
    (h : ∀ u ∈ us, (i == u.1) = false) :
    ∀ acc : Option Bool,
      us.foldl (fun acc u => if i == u.1 then some u.2 else acc) acc = acc := by
  induction us with
  | nil => intro acc; rfl
  | cons u t ih =>
    intro acc
    rw [List.foldl_cons, if_neg (by simp [h u (List.mem_cons_self u t)])]
    exact ih (fun v hv => h v (List.mem_cons_of_mem u hv)) acc

lemma lastFlag_eq_none (us : List (Nat × Bool)) (i : Nat)
    (h : ∀ u ∈ us, (i == u.1) = false) : lastFlag us i = none :=
  foldl_lastFlag_const i us h none

end ExpectedStudentService

/-- C5: a reconciliation run never touches the students table, changes at
most the is_registered column of expected rows, and (under the primary-key
uniqueness of row ids) leaves every expected row of a different upload
batch completely unchanged. -/
theorem reconcile_frame (st : DBState) (sid : String)
    (hids : (st.expected_students.map (fun e => e.id)).Nodup) :
    (ExpectedStudentService.updateRegistrationStatus st sid).students = st.students
    ∧ List.Forall₂ ExpectedStudentService.agreesExceptFlag
        (ExpectedStudentService.updateRegistrationStatus st sid).expected_students
        st.expected_students
    ∧ List.Forall₂ (fun a b => b.upload_session_id ≠ sid → a = b)
        (ExpectedStudentService.updateRegistrationStatus st sid).expected_students
        st.expected_students := by
  refine ⟨rfl, ?_, ?_⟩
  · show List.Forall₂ _ (ExpectedStudentService.applyUpdates st.expected_students _)
      st.expected_students
    rw [ExpectedStudentService.applyUpdates_eq_map, List.forall₂_map_left_iff,
      List.forall₂_same]
    intro e he
    exact ExpectedStudentService.rowApply_fields _ e
  · show List.Forall₂ _ (ExpectedStudentService.applyUpdates st.expected_students _)
      st.expected_students
    rw [ExpectedStudentService.applyUpdates_eq_map, List.forall₂_map_left_iff,
      List.forall₂_same]
    intro e he hne
    rw [ExpectedStudentService.rowApply_eq_setFlagOpt,
      ExpectedStudentService.lastFlag_eq_none]
    · rfl
    · intro u hu
      simp only [ExpectedStudentService.reconcileUpdates, List.mem_map] at hu
      obtain ⟨e2, he2, hu2⟩ := hu
      simp only [ExpectedStudentService.getExpectedStudents,
        List.mem_filter] at he2
      obtain ⟨he2db, hses⟩ := he2
      cases hq : (e.id == u.1) with
      | false => rfl
      | true =>
        exfalso
        have hid : e.id = u.1 := by
          exact beq_iff_eq.mp hq
        have hid2 : u.1 = e2.id := by rw [← hu2]
        have hee : e = e2 :=
          List.inj_on_of_nodup_map hids he he2db (by rw [hid, hid2])
        apply hne
        rw [hee]
        exact beq_iff_eq.mp hses

theorem reconcile_frame_witness :
    List.Forall₂ (fun a b => b.upload_session_id ≠ "s1" → a = b)
      (ExpectedStudentService.updateRegistrationStatus
        (DBState.mk [Student.mk "Ali" "Ahmadi" "1234567891" "701"]
          [ExpectedStudent.mk 1 "Ali" "Ahmadi" "1234567891" "701" false "s1",
           ExpectedStudent.mk 2 "Sara" "Karimi" "0499370899" "702" false "s2"])
        "s1").expected_students
      (DBState.mk [Student.mk "Ali" "Ahmadi" "1234567891" "701"]
        [ExpectedStudent.mk 1 "Ali" "Ahmadi" "1234567891" "701" false "s1",
         ExpectedStudent.mk 2 "Sara" "Karimi" "0499370899" "702" false "s2"]).expected_students :=
  (reconcile_frame
    (DBState.mk [Student.mk "Ali" "Ahmadi" "1234567891" "701"]
      [ExpectedStudent.mk 1 "Ali" "Ahmadi" "1234567891" "701" false "s1",
       ExpectedStudent.mk 2 "Sara" "Karimi" "0499370899" "702" false "s2"])
    "s1" (by decide)).2.2

namespace ExpectedStudentService

lemma mkInsertRows_session (students : List ExpectedStudentInsert)
    (sid : String) (base : Nat) :
    ∀ e ∈ mkInsertRows students sid base, e.upload_session_id = sid := by
  intro e he
  simp only [mkInsertRows, List.mem_map] at he
  obtain ⟨p, hp, rfl⟩ := he
  rfl

end ExpectedStudentService

/-- C9: uploading a batch first deletes every stored expected row of the
same upload session, then inserts the new rows, each tagged with the
session id; rows of other sessions and the students table are untouched. -/
theorem uploadExpectedStudents_replaces_batch (st : DBState)
    (students : List ExpectedStudentInsert) (sid : String) :
    (ExpectedStudentService.uploadExpectedStudents st students sid).expected_students.filter
        (fun e => !(e.upload_session_id == sid))
      = st.expected_students.filter (fun e => !(e.upload_session_id == sid))
    ∧ (∀ e ∈ (ExpectedStudentService.uploadExpectedStudents st students sid).expected_students,
        e.upload_session_id = sid →
          e ∈ ExpectedStudentService.mkInsertRows students sid
            (ExpectedStudentService.nextExpectedId st))
    ∧ (∀ e ∈ ExpectedStudentService.mkInsertRows students sid
          (ExpectedStudentService.nextExpectedId st), e.upload_session_id = sid)
    ∧ (ExpectedStudentService.uploadExpectedStudents st students sid).students
      = st.students := by
  refine ⟨?_, ?_, ExpectedStudentService.mkInsertRows_session students sid _, rfl⟩
  · show (List.filter _ (_ ++ _)) = _
    rw [List.filter_append]
    have h2 : (ExpectedStudentService.mkInsertRows students sid
        (ExpectedStudentService.nextExpectedId st)).filter
          (fun e => !(e.upload_session_id == sid)) = [] := by
      rw [List.filter_eq_nil_iff]
      intro e he
      rw [ExpectedStudentService.mkInsertRows_session students sid _ e he]
      simp
    rw [h2, List.append_nil, List.filter_filter]
    apply List.filter_congr
    intro e he
    rw [Bool.and_self]
  · intro e he hses
    rcases List.mem_append.mp he with hmem | hmem
    · exfalso
      have := (List.mem_filter.mp hmem).2
      rw [hses] at this
      simp at this
    · exact hmem

theorem uploadExpectedStudents_replaces_batch_witness :
    (ExpectedStudent.mk 1 "Nima" "Rad" "0499370899" "701" false "b1")
      ∈ ExpectedStudentService.mkInsertRows
          [ExpectedStudentInsert.mk "Nima" "Rad" "0499370899" "701" false]
          "b1" (ExpectedStudentService.nextExpectedId (DBState.mk [] []))
    → (ExpectedStudent.mk 1 "Nima" "Rad" "0499370899" "701" false "b1").upload_session_id = "b1" :=
  (uploadExpectedStudents_replaces_batch (DBState.mk [] [])
    [ExpectedStudentInsert.mk "Nima" "Rad" "0499370899" "701" false] "b1").2.2.1
    (ExpectedStudent.mk 1 "Nima" "Rad" "0499370899" "701" false "b1")

lemma processRows_foldl_aux (rows : List Row) :
    ∀ acc : List ExpectedStudentInsert × List RowError,
      rows.foldl
        (fun acc row =>
          match classifyRow row with
          | Except.ok s => (acc.1 ++ [s], acc.2)
          | Except.error e => (acc.1, acc.2 ++ [e]))
        acc
      = (acc.1 ++ rows.filterMap rowOk, acc.2 ++ rows.filterMap rowErr) := by
  induction rows with
  | nil => intro acc; simp
  | cons r t ih =>
    intro acc
    rw [List.foldl_cons]
    cases hcr : classifyRow r with
    | ok s =>
      have h1 : rowOk r = some s := by unfold rowOk; rw [hcr]
      have h2 : rowErr r = none := by unfold rowErr; rw [hcr]
      simp only [hcr, ih, List.filterMap_cons, h1, h2, List.append_assoc,
        List.singleton_append]
    | error e =>
      have h1 : rowOk r = none := by unfold rowOk; rw [hcr]
      have h2 : rowErr r = some e := by unfold rowErr; rw [hcr]
      simp only [hcr, ih, List.filterMap_cons, h1, h2, List.append_assoc,
        List.singleton_append]

lemma processRows_eq (rows : List Row) :
    processRows rows = (rows.filterMap rowOk, rows.filterMap rowErr) := by
  unfold processRows
  rw [processRows_foldl_aux rows ([], [])]
  simp

lemma length_filterMap_rowErr (rows : List Row) :
    (rows.filterMap rowErr).length
      = (rows.filter (fun r => (rowErr r).isSome)).length := by
  induction rows with
  | nil => rfl
  | cons r t ih =>
    rw [List.filterMap_cons, List.filter_cons]
    cases hre : rowErr r with
    | none => simpa [hre] using ih
    | some e => simpa [hre] using ih

/-- C8: ingestion is partial-success: on a non-empty parsed sheet the valid
rows are exactly the well-formed rows in order, every malformed row
contributes exactly one error, and a batch with rows but no valid row makes
the whole upload fail with the no-valid-records error (so nothing is
stored). -/
theorem ingestion_rowwise_errors (rows : List Row) (hne : rows ≠ []) :
    (processRows rows).1 = rows.filterMap rowOk
    ∧ (processRows rows).2 = rows.filterMap rowErr
    ∧ (processRows rows).2.length
        = (rows.filter (fun r => (rowErr r).isSome)).length
    ∧ ((processRows rows).1 = [] →
        ∀ (st : DBState) (sid : String),
          handleFileUpload st rows sid
            = Except.error UploadError.noValidRecords) := by
  refine ⟨by rw [processRows_eq], by rw [processRows_eq], ?_, ?_⟩
  · rw [processRows_eq]
    exact length_filterMap_rowErr rows
  · intro hz st sid
    have hlen : rows.length ≠ 0 := by
      intro hcon
      exact hne (List.eq_nil_of_length_eq_zero hcon)
    have hok : rows.filterMap rowOk = [] := by
      rw [processRows_eq] at hz
      exact hz
    have hallbad : ∀ r ∈ rows, rowOk r = none := List.filterMap_eq_nil_iff.mp hok
    have herr : 0 < (processRows rows).2.length := by
      rw [processRows_eq]
      cases rows with
      | nil => exact absurd rfl hne
      | cons r t =>
        have hbad : rowOk r = none := hallbad r (List.mem_cons_self r t)
        have : ∃ e, rowErr r = some e := by
          unfold rowOk at hbad
          unfold rowErr
          cases hcr : classifyRow r with
          | ok s => rw [hcr] at hbad; cases hbad
          | error e => exact ⟨e, rfl⟩
        obtain ⟨e, he⟩ := this
        show 0 < (List.filterMap rowErr (r :: t)).length
        rw [List.filterMap_cons, he]
        simp
    have hing : ingest rows = Except.error UploadError.noValidRecords := by
      unfold ingest
      rw [if_neg hlen, if_pos ⟨herr, by rw [hz]; rfl⟩]
    unfold handleFileUpload
    rw [hing]

theorem ingestion_rowwise_errors_witness :
    handleFileUpload (DBState.mk [] []) [fun _ => none] "s1"
      = Except.error UploadError.noValidRecords :=
  (ingestion_rowwise_errors [fun _ => none] (by simp)).2.2.2 (by rfl)
    (DBState.mk [] []) "s1"
